import Mathlib

/-!
Shallow embedding of the AIF360 diabetes-dataset loading code:
  * `aif360/sklearn/datasets/diabetes_dataset.py` (`fetch_diabetes`):
    cache resolution, the three `df.replace` remap passes, and the
    per-column most-frequent-value imputation loop;
  * `aif360/datasets/diabetes_dataset.py` (`DiabetesDataset.__init__`):
    local-file read with print-and-exit error handling and the default
    constructor arguments.

Tables are modelled as ordered lists of named columns; a cell is
`Option String` (`none` is pandas `NaN`).  A column carries an `isObject`
flag modelling its pandas dtype, which decides membership in
`df.select_dtypes(include=object)`.  Pandas `Series.mode()` returns the
most frequent non-missing values sorted ascending, so `mode()[0]` is the
least value (string order) among the most frequent ones; on an empty
column it raises `KeyError: 0`.  Errors are modelled with `Except String`.
-/

/-- A single table cell: `none` models a missing value (`NaN`). -/
abbrev Cell := Option String

/-- One named column.  `isObject` models the pandas dtype test used by
`df.select_dtypes(include=object)`. -/
structure Col where
  name : String
  isObject : Bool
  cells : List Cell
  deriving Repr, DecidableEq

/-- A table: an ordered list of columns (all of equal length in real data,
though nothing below needs that). -/
structure Table where
  cols : List Col
  deriving Repr, DecidableEq

/-! ### The three remap passes (lines 56-65 of the sklearn file) -/

/-- Line 57: `df.replace({'NO':'1', '<30':'2', '>30':'3'})` as a value function. -/
def targetRemap (v : String) : String :=
  if v = "NO" then "1"
  else if v = "<30" then "2"
  else if v = ">30" then "3"
  else v

/-- Line 61: `df.replace({'?': np.NaN})` as a cell function. -/
def sentinelRemap (c : Cell) : Cell :=
  match c with
  | none => none
  | some v => if v = "?" then none else some v

/-- Lines 64-65: `df.replace({'[0-10)':'1', ..., '[90-100)':'10'})` as a value function. -/
def ageRemap (v : String) : String :=
  if v = "[0-10)" then "1"
  else if v = "[10-20)" then "2"
  else if v = "[20-30)" then "3"
  else if v = "[30-40)" then "4"
  else if v = "[40-50)" then "5"
  else if v = "[50-60)" then "6"
  else if v = "[60-70)" then "7"
  else if v = "[70-80)" then "8"
  else if v = "[80-90)" then "9"
  else if v = "[90-100)" then "10"
  else v

/-- A whole-table `df.replace` with a value-to-value rule: the rule is
applied to every present cell of every column. -/
def replaceVals (f : String → String) (t : Table) : Table :=
  ⟨t.cols.map fun c => { c with cells := c.cells.map (Option.map f) }⟩

/-- The `'?' → NaN` pass applied to every cell of every column. -/
def replaceSentinel (t : Table) : Table :=
  ⟨t.cols.map fun c => { c with cells := c.cells.map sentinelRemap }⟩

/-- Lines 56-65: the three `df.replace` calls in source order
(target tokens, then sentinel `'?'`, then age buckets). -/
def remapPhase (t : Table) : Table :=
  replaceVals ageRemap (replaceSentinel (replaceVals targetRemap t))

/-! ### Imputation (lines 67-69) -/

/-- The observed (non-missing) values of a column, in row order. -/
def obsVals (cells : List Cell) : List String :=
  cells.filterMap id

/-- Lexicographic comparison of character lists by Unicode scalar value:
how Python compares the strings that pandas' mode computation sorts. -/
def charsLt : List Char → List Char → Bool
  | _, [] => false
  | [], _ :: _ => true
  | a :: as, b :: bs =>
    if a < b then true
    else if b < a then false
    else charsLt as bs

/-- Python's `<` on strings: lexicographic by code point. -/
def lexLt (a b : String) : Bool :=
  charsLt a.data b.data

/-- One comparison step of the mode computation: keep whichever of `w`, `v`
has the larger count in `xs`, breaking equal counts by the smaller string.
This realizes pandas' sorting of the mode values: `mode()[0]` is the least
string among the most frequent ones. -/
def pickBetter (xs : List String) (w v : String) : String :=
  if xs.count v > xs.count w then v
  else if xs.count v = xs.count w ∧ lexLt v w then v
  else w

/-- Models `series.mode()[0]` for the series of observed values `xs`: the most
frequent value, ties broken by the least value in string order; `none`
when `xs` is empty (pandas raises `KeyError: 0` there). -/
def modeHead (xs : List String) : Option String :=
  match xs with
  | [] => none
  | y :: _ => some (xs.foldl (pickBetter xs) y)

/-- Models `df[col] = df[col].fillna(df[col].mode()[0])` for one column, guarded by
the `select_dtypes(include=object)` membership test.  An object column with
no observed value reproduces pandas' `KeyError: 0` on `mode()[0]`. -/
def fillCol (c : Col) : Except String Col :=
  if c.isObject then
    match modeHead (obsVals c.cells) with
    | none => .error "KeyError: 0"
    | some m => .ok { c with cells := c.cells.map fun x => some (x.getD m) }
  else
    .ok c

/-- The `for col in df.select_dtypes(include=object)` loop, column by
column; the first raising column aborts the loop as in Python. -/
def imputeCols : List Col → Except String (List Col)
  | [] => .ok []
  | c :: rest => do
    let c' ← fillCol c
    let rest' ← imputeCols rest
    .ok (c' :: rest')

/-- The normalizer of `fetch_diabetes`: the three remap passes followed by
the imputation loop (lines 56-69). -/
def normalizeTable (t : Table) : Except String Table :=
  (imputeCols (remapPhase t).cols).map Table.mk

/-- Shape of a table: the ordered column names with dtypes, and the number
of cells in each column. -/
def tableShape (t : Table) : List (String × Bool × Nat) :=
  t.cols.map fun c => (c.name, c.isObject, c.cells.length)

/-! ### Fetcher (lines 45-54 of the sklearn file)

The filesystem is the spec's key–value blob store: a map from path to
parsed table plus a set of created directories.  `pd.read_csv` of a blob is
modelled as returning the stored table (the `index_col='encounter_id'`
parsing detail is inside the blob contents and not re-modelled). -/

def DIABETES_URL : String :=
  "https://raw.githubusercontent.com/angelmanzur/Diabetes_130Hospitals/master/dataset_diabetes/diabetic_data.csv"

/-- Models `os.path.join(os.path.dirname(os.path.abspath(__file__)), '..', 'data', 'raw')`;
the module directory is not observable here, so the constant stands for the
resolved default path. -/
def DATA_HOME_DEFAULT : String :=
  "aif360/sklearn/datasets/../data/raw"

/-- Models `os.path.basename`: the part after the final `'/'` (the whole string
when there is none). -/
def basename (p : String) : String :=
  ⟨(p.data.reverse.takeWhile (· ≠ '/')).reverse⟩

def joinPath (a b : String) : String := a ++ "/" ++ b

/-- Models `os.path.dirname`: the part before the final `'/'` (empty when there is
none). -/
def dirname (p : String) : String :=
  ⟨((p.data.reverse.dropWhile (· ≠ '/')).drop 1).reverse⟩

structure FileSystem where
  files : List (String × Table)
  dirs : List String
  deriving Repr, DecidableEq

def isfile (fs : FileSystem) (p : String) : Bool :=
  fs.files.any fun f => f.1 = p

def readTableFile (fs : FileSystem) (p : String) : Option Table :=
  (fs.files.find? fun f => f.1 = p).map (·.2)

/-- Models `df.to_csv(path)`: overwrite the blob at `path`. -/
def writeFile (fs : FileSystem) (p : String) (t : Table) : FileSystem :=
  { fs with files := (p, t) :: fs.files.filter fun f => f.1 ≠ p }

/-- Models `os.makedirs(d, exist_ok=True)`: create the directory if absent. -/
def makedirs (fs : FileSystem) (d : String) : FileSystem :=
  if d ∈ fs.dirs then fs else { fs with dirs := d :: fs.dirs }

/-- Models `os.path.join(data_home or DATA_HOME_DEFAULT, os.path.basename(data_url))`. -/
def cachePath (dataHome : Option String) : String :=
  joinPath (dataHome.getD DATA_HOME_DEFAULT) (basename DIABETES_URL)

structure FetchOutcome where
  df : Table
  fs : FileSystem
  remoteContacted : Bool
  deriving Repr, DecidableEq

/-- Lines 45-54: resolve the cache, else read the remote table and, when
caching, create the cache directory and persist the table.  `remote` is the
table the URL parses to; `none` out means the local `pd.read_csv` raised. -/
def fetchStep (fs : FileSystem) (remote : Table) (dataHome : Option String)
    (cache : Bool) : Option FetchOutcome :=
  let p := cachePath dataHome
  if cache ∧ isfile fs p then
    (readTableFile fs p).map fun df => ⟨df, fs, false⟩
  else if cache then
    some ⟨remote, writeFile (makedirs fs (dirname p)) p remote, true⟩
  else
    some ⟨remote, fs, true⟩

/-! ### Legacy `DiabetesDataset.__init__` (`aif360/datasets/diabetes_dataset.py`)

Filesystem path joins are kept as literal `'/'`-joins; `os.path.abspath`
normalization of `..` segments is not modelled (the claims only need which
path is printed, not its normal form). -/

def UCI_ZIP_URL : String :=
  "https://archive.ics.uci.edu/ml/machine-learning-databases/00296/dataset_diabetes.zip"

def defaultLabelName : String := "readmitted "

def defaultFavorableClasses : List String := ["<30"]

def defaultProtectedAttributeNames : List String :=
  ["admission_type_id", "discharge_disposition_id", "admission_source_id"]

def defaultCategoricalFeatures : List String :=
  ["race", "gender", "age", "weight", "payer_code", "medical_specialty",
   "diag_1", "diag_2", "diag_3", "max_glu_serum", "A1Cresult", "metformin",
   "repaglinide", "nateglinide", "chlorpropamide", "glimepiride",
   "acetohexamide", "glipizide", "glyburide", "tolbutamide",
   "pioglitazone", "rosiglitazone", "acarbose", "miglitol", "troglitazone",
   "tolazamide", "examide", "citoglipton", "insulin",
   "glyburide-metformin", "glipizide-metformin",
   "glimepiride-pioglitazone", "metformin-rosiglitazone",
   "metformin-pioglitazone", "change", "diabetesMed", "readmitted"]

def defaultFeaturesToDrop : List String := ["weight"]

def defaultNaValues : List String := ["?"]

/-- The keyword arguments `DiabetesDataset.__init__` forwards to
`StandardDataset.__init__` (the base class itself is out of scope). -/
structure StandardDatasetArgs where
  df : Table
  labelName : String
  favorableClasses : List String
  protectedAttributeNames : List String
  categoricalFeatures : List String
  featuresToKeep : List String
  featuresToDrop : List String
  naValues : List String
  deriving Repr, DecidableEq

/-- How a constructor call ends: forwarding to the base class, terminating
the process via `sys.exit`, or letting an exception propagate. -/
inductive InitResult where
  | ok : StandardDatasetArgs → InitResult
  | fatalExit : Nat → List String → InitResult
  | raised : String → InitResult
  deriving Repr, DecidableEq

/-- The expected local data file (lines 85-86). -/
def diabetesFilepath (moduleDir : String) : String :=
  moduleDir ++ "/../data/raw/diabetes/diabetic_data.csv"

/-- The folder printed by the error handler (lines 96-97):
`os.path.join(os.path.abspath(__file__), '..', '..', 'data', 'raw', 'diabetes')`
with `__file__` the module file inside `moduleDir`. -/
def diabetesInstallDir (moduleDir : String) : String :=
  moduleDir ++ "/diabetes_dataset.py/../../data/raw/diabetes"

/-- The lines printed before `sys.exit(1)` (lines 91-97), with the format
placeholders already substituted. -/
def legacyPrintedLines (errMsg : String) (moduleDir : String) : List String :=
  ["IOError: " ++ errMsg,
   "To use this class, please download the following file:",
   "\n\t" ++ UCI_ZIP_URL,
   "\nunzip it and place the files, as-is, in the folder:",
   "\n\t" ++ diabetesInstallDir moduleDir ++ "\n"]

/-- Models `DiabetesDataset.__init__`: `readResult` is the outcome of
`pd.read_csv(filepath, sep=';', na_values=na_values)` (`.error` models a
raised `IOError`).  On failure the handler prints the instructions and calls
`sys.exit(1)`; on success the arguments go to `StandardDataset.__init__`. -/
def diabetesInit (moduleDir : String) (readResult : Except String Table)
    (labelName : String) (favorableClasses : List String)
    (protectedAttributeNames : List String)
    (categoricalFeatures : List String) (featuresToKeep : List String)
    (featuresToDrop : List String) (naValues : List String) : InitResult :=
  match readResult with
  | .error e => .fatalExit 1 (legacyPrintedLines e moduleDir)
  | .ok df =>
    .ok { df := df, labelName := labelName,
          favorableClasses := favorableClasses,
          protectedAttributeNames := protectedAttributeNames,
          categoricalFeatures := categoricalFeatures,
          featuresToKeep := featuresToKeep,
          featuresToDrop := featuresToDrop, naValues := naValues }

/-- A constructor call with every default argument. -/
def diabetesInitDefaults (moduleDir : String)
    (readResult : Except String Table) : InitResult :=
  diabetesInit moduleDir readResult defaultLabelName defaultFavorableClasses
    defaultProtectedAttributeNames defaultCategoricalFeatures []
    defaultFeaturesToDrop defaultNaValues

/-! ### Derived definitions used by the statements -/

/-- The composite effect of the three remap passes on a single cell, in
source order: target tokens, then the `'?'` sentinel, then age buckets. -/
def cellRule (x : Cell) : Cell :=
  Option.map ageRemap (sentinelRemap (Option.map targetRemap x))

/-- The three raw label tokens remapped on line 57. -/
def targetTokens : List String := ["NO", "<30", ">30"]

/-- The three label codes produced on line 57. -/
def targetCodes : List String := ["1", "2", "3"]

/-- The ten age-bucket strings remapped on lines 63-65, in decade order. -/
def ageBuckets : List String :=
  ["[0-10)", "[10-20)", "[20-30)", "[30-40)", "[40-50)",
   "[50-60)", "[60-70)", "[70-80)", "[80-90)", "[90-100)"]

/-- Modelled from the claim's words (not from the code): the most frequent
value with ties broken by the first-encountered value in observed order.
Only used to compare against the code's `modeHead`. -/
def firstMostFrequent (xs : List String) : Option String :=
  match xs with
  | [] => none
  | y :: _ =>
    some (xs.foldl (fun w v => if xs.count v > xs.count w then v else w) y)

/-- Predicate stating `m` is at least as good a mode choice as `v` in `xs`:
no smaller count, and on equal counts `m` is the string-order minimum. -/
def Dominates (xs : List String) (m v : String) : Prop :=
  xs.count v ≤ xs.count m ∧ (xs.count v = xs.count m → lexLt v m = false)

/-! ### Helper lemmas -/

lemma remapPhase_eq (t : Table) :
    remapPhase t = ⟨t.cols.map fun c => { c with cells := c.cells.map cellRule }⟩ := by
  simp [remapPhase, replaceVals, replaceSentinel, cellRule, List.map_map, Function.comp]

lemma tableShape_remapPhase (t : Table) :
    tableShape (remapPhase t) = tableShape t := by
  simp [remapPhase_eq, tableShape, List.map_map, Function.comp]

lemma fillCol_shape {c c' : Col} (h : fillCol c = .ok c') :
    c'.name = c.name ∧ c'.isObject = c.isObject ∧ c'.cells.length = c.cells.length := by
  unfold fillCol at h
  split at h
  · cases hm : modeHead (obsVals c.cells) <;> rw [hm] at h
    · exact absurd h (by simp)
    · cases h
      simp
  · cases h
    exact ⟨rfl, rfl, rfl⟩

lemma imputeCols_cons (c : Col) (rest : List Col) :
    imputeCols (c :: rest) =
      (fillCol c).bind fun c' =>
        (imputeCols rest).bind fun rest' => .ok (c' :: rest') := rfl

lemma imputeCols_shape : ∀ {cs cs' : List Col}, imputeCols cs = .ok cs' →
    cs'.map (fun c => (c.name, c.isObject, c.cells.length)) =
      cs.map fun c => (c.name, c.isObject, c.cells.length) := by
  intro cs
  induction cs with
  | nil => intro cs' h; cases h; rfl
  | cons c rest ih =>
    intro cs' h
    rw [imputeCols_cons] at h
    cases hc : fillCol c <;> rw [hc] at h
    · exact absurd h (by simp [Except.bind])
    · cases hr : imputeCols rest <;> rw [hr] at h
      · exact absurd h (by simp [Except.bind])
      · simp [Except.bind] at h
        subst h
        obtain ⟨h1, h2, h3⟩ := fillCol_shape hc
        simp [h1, h2, h3, ih hr]

lemma charsLt_irrefl : ∀ l : List Char, charsLt l l = false
  | [] => rfl
  | a :: as => by
    simp only [charsLt, lt_irrefl, if_false]
    exact charsLt_irrefl as

lemma charsLt_trans : ∀ (l₁ : List Char) {l₂ l₃ : List Char},
    charsLt l₁ l₂ = true → charsLt l₂ l₃ = true → charsLt l₁ l₃ = true := by
  intro l₁
  induction l₁ with
  | nil =>
    intro l₂ l₃ h₁ h₂
    cases l₂ with
    | nil => exact absurd h₁ (by simp [charsLt])
    | cons b bs =>
      cases l₃ with
      | nil => exact absurd h₂ (by simp [charsLt])
      | cons c cs => rfl
  | cons a as ih =>
    intro l₂ l₃ h₁ h₂
    cases l₂ with
    | nil => exact absurd h₁ (by simp [charsLt])
    | cons b bs =>
      cases l₃ with
      | nil => exact absurd h₂ (by simp [charsLt])
      | cons c cs =>
        simp only [charsLt] at h₁ h₂ ⊢
        by_cases hab : a < b
        · by_cases hbc : b < c
          · simp [lt_trans hab hbc]
          · by_cases hcb : c < b
            · rw [if_neg hbc, if_pos hcb] at h₂
              exact absurd h₂ (by simp)
            · have hbc' : b = c := le_antisymm (not_lt.mp hcb) (not_lt.mp hbc)
              subst hbc'
              simp [hab]
        · by_cases hba : b < a
          · rw [if_neg hab, if_pos hba] at h₁
            exact absurd h₁ (by simp)
          · have hab' : a = b := le_antisymm (not_lt.mp hba) (not_lt.mp hab)
            subst hab'
            rw [if_neg hab, if_neg hab] at h₁
            by_cases hac : a < c
            · simp [hac]
            · by_cases hca : c < a
              · rw [if_neg hac, if_pos hca] at h₂
                exact absurd h₂ (by simp)
              · rw [if_neg hac, if_neg hca] at h₂ ⊢
                exact ih h₁ h₂

lemma charsLt_connex : ∀ (l₁ : List Char) {l₂ : List Char},
    charsLt l₁ l₂ = false → charsLt l₂ l₁ = false → l₁ = l₂ := by
  intro l₁
  induction l₁ with
  | nil =>
    intro l₂ h₁ h₂
    cases l₂ with
    | nil => rfl
    | cons b bs => exact absurd h₁ (by simp [charsLt])
  | cons a as ih =>
    intro l₂ h₁ h₂
    cases l₂ with
    | nil => exact absurd h₂ (by simp [charsLt])
    | cons b bs =>
      simp only [charsLt] at h₁ h₂
      by_cases hab : a < b
      · rw [if_pos hab] at h₁
        exact absurd h₁ (by simp)
      · by_cases hba : b < a
        · rw [if_pos hba] at h₂
          exact absurd h₂ (by simp)
        · rw [if_neg hab, if_neg hba] at h₁
          rw [if_neg hba, if_neg hab] at h₂
          have heq : a = b := le_antisymm (not_lt.mp hba) (not_lt.mp hab)
          rw [heq, ih h₁ h₂]

lemma lexLt_irrefl (v : String) : lexLt v v = false :=
  charsLt_irrefl v.data

lemma lexLt_trans {a b c : String} (h₁ : lexLt a b = true)
    (h₂ : lexLt b c = true) : lexLt a c = true :=
  charsLt_trans a.data h₁ h₂

lemma lexLt_connex {a b : String} (h₁ : lexLt a b = false)
    (h₂ : lexLt b a = false) : a = b := by
  cases a with
  | mk la =>
    cases b with
    | mk lb => exact congrArg String.mk (charsLt_connex la h₁ h₂)

lemma lexLt_asymm {a b : String} (h : lexLt a b = true) : lexLt b a = false := by
  cases hba : lexLt b a with
  | false => rfl
  | true =>
    have : lexLt a a = true := lexLt_trans h hba
    rw [lexLt_irrefl] at this
    exact absurd this (by simp)

lemma lexLt_le_trans {a b c : String} (h₁ : lexLt b a = false)
    (h₂ : lexLt c b = false) : lexLt c a = false := by
  cases hca : lexLt c a with
  | false => rfl
  | true =>
    cases hab : lexLt a b with
    | true =>
      have : lexLt c b = true := lexLt_trans hca hab
      rw [h₂] at this
      exact absurd this (by simp)
    | false =>
      have heq : a = b := lexLt_connex hab h₁
      rw [heq] at hca
      rw [h₂] at hca
      exact absurd hca (by simp)

lemma Dominates.refl (xs : List String) (v : String) : Dominates xs v v :=
  ⟨le_refl _, fun _ => lexLt_irrefl v⟩

lemma Dominates.trans {xs : List String} {a b c : String}
    (h1 : Dominates xs a b) (h2 : Dominates xs b c) : Dominates xs a c := by
  refine ⟨h2.1.trans h1.1, fun heq => ?_⟩
  have hcb : xs.count c ≤ xs.count b := h2.1
  have hba : xs.count b ≤ xs.count a := h1.1
  have hb : xs.count b = xs.count a := le_antisymm hba (heq ▸ hcb)
  exact lexLt_le_trans (h1.2 hb) (h2.2 (by omega))

lemma pickBetter_dominates (xs : List String) (w v : String) :
    Dominates xs (pickBetter xs w v) w ∧ Dominates xs (pickBetter xs w v) v := by
  unfold pickBetter
  split
  · rename_i hgt
    exact ⟨⟨le_of_lt hgt, fun hEq => absurd hEq (by omega)⟩, Dominates.refl xs v⟩
  · split
    · rename_i hne htie
      exact ⟨⟨le_of_eq htie.1.symm, fun _ => lexLt_asymm htie.2⟩, Dominates.refl xs v⟩
    · rename_i hne htie
      refine ⟨Dominates.refl xs w, ⟨by omega, fun hEq => ?_⟩⟩
      cases hlt : lexLt v w with
      | false => rfl
      | true => exact absurd ⟨hEq, hlt⟩ htie

lemma pickBetter_cases (xs : List String) (w v : String) :
    pickBetter xs w v = w ∨ pickBetter xs w v = v := by
  unfold pickBetter
  split
  · exact Or.inr rfl
  · split
    · exact Or.inr rfl
    · exact Or.inl rfl

lemma foldl_pickBetter_in (xs : List String) :
    ∀ (l : List String) (a : String),
      l.foldl (pickBetter xs) a = a ∨ l.foldl (pickBetter xs) a ∈ l := by
  intro l
  induction l with
  | nil => intro a; exact Or.inl rfl
  | cons b l' ih =>
    intro a
    rw [List.foldl_cons]
    rcases ih (pickBetter xs a b) with h | h
    · rcases pickBetter_cases xs a b with hc | hc
      · exact Or.inl (h.trans hc)
      · refine Or.inr ?_
        rw [h.trans hc]
        exact List.mem_cons_self b l'
    · exact Or.inr (List.mem_cons_of_mem b h)

lemma foldl_pickBetter_dominates (xs : List String) :
    ∀ (l : List String) (a v : String), (v = a ∨ v ∈ l) →
      Dominates xs (l.foldl (pickBetter xs) a) v := by
  intro l
  induction l with
  | nil =>
    intro a v h
    rcases h with h | h
    · subst h; exact Dominates.refl xs v
    · exact absurd h (List.not_mem_nil v)
  | cons b l' ih =>
    intro a v h
    rw [List.foldl_cons]
    have hacc : Dominates xs (l'.foldl (pickBetter xs) (pickBetter xs a b)) (pickBetter xs a b) :=
      ih (pickBetter xs a b) (pickBetter xs a b) (Or.inl rfl)
    rcases h with h | h
    · subst h
      exact hacc.trans (pickBetter_dominates xs v b).1
    · rcases List.mem_cons.mp h with h | h
      · subst h
        exact hacc.trans (pickBetter_dominates xs a v).2
      · exact ih (pickBetter xs a b) v (Or.inr h)

lemma modeHead_mem {xs : List String} {m : String} (h : modeHead xs = some m) :
    m ∈ xs := by
  cases xs with
  | nil => exact absurd h (by simp [modeHead])
  | cons y ys =>
    unfold modeHead at h
    injection h with h
    rcases foldl_pickBetter_in (y :: ys) (y :: ys) y with h' | h'
    · rw [h] at h'; rw [h']; exact List.mem_cons_self y ys
    · rw [h] at h'; exact h'

lemma modeHead_dominates {xs : List String} {m : String} (h : modeHead xs = some m) :
    ∀ v ∈ xs, Dominates xs m v := by
  intro v hv
  cases xs with
  | nil => exact absurd hv (List.not_mem_nil v)
  | cons y ys =>
    unfold modeHead at h
    injection h with h
    subst h
    exact foldl_pickBetter_dominates (y :: ys) (y :: ys) y v (Or.inr hv)

lemma targetRemap_id {v : String} (h : v ∉ targetTokens) : targetRemap v = v := by
  simp [targetTokens] at h
  simp [targetRemap, h.1, h.2.1, h.2.2]

lemma ageRemap_id {v : String} (h : v ∉ ageBuckets) : ageRemap v = v := by
  simp [ageBuckets] at h
  obtain ⟨h1, h2, h3, h4, h5, h6, h7, h8, h9, h10⟩ := h
  simp [ageRemap, h1, h2, h3, h4, h5, h6, h7, h8, h9, h10]

lemma cellRule_none : cellRule none = none := rfl

lemma cellRule_id {v : String} (h1 : v ∉ targetTokens) (h2 : v ≠ "?")
    (h3 : v ∉ ageBuckets) : cellRule (some v) = some v := by
  simp [cellRule, targetRemap_id h1, sentinelRemap, h2, ageRemap_id h3]

lemma obsVals_eq_nil {cells : List Cell} (h : ∀ x ∈ cells, x = none) :
    obsVals cells = [] := by
  induction cells with
  | nil => rfl
  | cons x rest ih =>
    have hx := h x (List.mem_cons_self x rest)
    subst hx
    simp only [obsVals, List.filterMap_cons_none, id]
    exact ih fun y hy => h y (List.mem_cons_of_mem _ hy)

lemma obsVals_ne_nil {cells : List Cell} (hne : cells ≠ [])
    (hnn : none ∉ cells) : obsVals cells ≠ [] := by
  cases cells with
  | nil => exact absurd rfl hne
  | cons x rest =>
    cases x with
    | none => exact absurd (List.mem_cons_self _ _) hnn
    | some v => simp [obsVals]

lemma fillCol_error_of_all_none {c : Col} (hobj : c.isObject = true)
    (h : ∀ x ∈ c.cells, x = none) : fillCol c = .error "KeyError: 0" := by
  have hobs : obsVals c.cells = [] := obsVals_eq_nil h
  simp [fillCol, hobj, hobs, modeHead]

lemma fillCol_id_of_clean {c : Col}
    (hnn : c.isObject = true → none ∉ c.cells ∧ c.cells ≠ []) :
    fillCol c = .ok c := by
  unfold fillCol
  split
  · rename_i hobj
    obtain ⟨h1, h2⟩ := hnn hobj
    have hobs : obsVals c.cells ≠ [] := obsVals_ne_nil h2 h1
    cases hm : modeHead (obsVals c.cells) with
    | none =>
      cases he : obsVals c.cells with
      | nil => exact absurd he hobs
      | cons y ys => rw [he] at hm; exact absurd hm (by simp [modeHead])
    | some m =>
      have heq : c.cells.map (fun x => some (x.getD m)) = c.cells :=
        calc c.cells.map (fun x => some (x.getD m))
            = c.cells.map id := by
              apply List.map_congr_left
              intro x hx
              cases x with
              | none => exact absurd hx h1
              | some v => rfl
          _ = c.cells := List.map_id c.cells
      simp [heq]
  · rfl

lemma fillCol_error_msg {c : Col} {e : String} (h : fillCol c = .error e) :
    e = "KeyError: 0" := by
  unfold fillCol at h
  split at h
  · cases hm : modeHead (obsVals c.cells) <;> rw [hm] at h
    · cases h; rfl
    · exact absurd h (by simp)
  · exact absurd h (by simp)

lemma imputeCols_id {cs : List Col} (h : ∀ c ∈ cs, fillCol c = .ok c) :
    imputeCols cs = .ok cs := by
  induction cs with
  | nil => rfl
  | cons c rest ih =>
    rw [imputeCols_cons, h c (List.mem_cons_self c rest),
        ih fun d hd => h d (List.mem_cons_of_mem c hd)]
    rfl

lemma imputeCols_error {cs : List Col}
    (h : ∃ c ∈ cs, fillCol c = .error "KeyError: 0") :
    imputeCols cs = .error "KeyError: 0" := by
  induction cs with
  | nil => obtain ⟨c, hc, _⟩ := h; exact absurd hc (List.not_mem_nil c)
  | cons c rest ih =>
    rw [imputeCols_cons]
    cases hc : fillCol c with
    | error e =>
      have he : e = "KeyError: 0" := fillCol_error_msg hc
      subst he
      simp [Except.bind]
    | ok c' =>
      obtain ⟨d, hd, hde⟩ := h
      rcases List.mem_cons.mp hd with hdc | hdrest
      · subst hdc
        rw [hc] at hde
        exact absurd hde (by simp)
      · rw [ih ⟨d, hdrest, hde⟩]
        rfl

lemma makedirs_idem (fs : FileSystem) (d : String) :
    makedirs (makedirs fs d) d = makedirs fs d := by
  by_cases h : d ∈ fs.dirs
  · simp [makedirs, h]
  · simp [makedirs, h]

/-! ### Claim theorems -/

/-- C3: each value remap rule is applied across the whole table — every
cell of every column is rewritten by the same per-cell rule — and the rules
compose in the fixed source order: the label-token remap first, then the
sentinel-missing-token remap, then the categorical age-bucket remap. -/
theorem remap_rules_whole_table_in_order (t : Table) :
    remapPhase t =
      ⟨t.cols.map fun c =>
        { c with cells := c.cells.map fun x =>
            Option.map ageRemap (sentinelRemap (Option.map targetRemap x)) }⟩ := by
  rw [remapPhase_eq]
  simp [cellRule]

/-- C4: the label-token remap sends `'NO'`, `'<30'`, `'>30'` to `'1'`,
`'2'`, `'3'` respectively, maps the token set into the code set, is
injective on the tokens, and leaves every other value unchanged. -/
theorem target_remap_bijection :
    (targetRemap "NO" = "1" ∧ targetRemap "<30" = "2" ∧ targetRemap ">30" = "3") ∧
    (∀ v ∈ targetTokens, targetRemap v ∈ targetCodes) ∧
    (∀ a ∈ targetTokens, ∀ b ∈ targetTokens, targetRemap a = targetRemap b → a = b) ∧
    (∀ v, v ∉ targetTokens → targetRemap v = v) := by
  refine ⟨by decide, by decide, by decide, ?_⟩
  intro v hv
  exact targetRemap_id hv

theorem target_remap_bijection_witness :
    targetRemap "Caucasian" = "Caucasian" :=
  target_remap_bijection.2.2.2 "Caucasian" (by decide)

/-- C5: the age-bucket remap sends the k-th decade bucket string to the
code `toString k` (k = 1..10), is injective on the ten bucket strings, and
leaves every other value unchanged. -/
theorem age_bucket_remap_bijection :
    (∀ k, k < 10 → ageRemap (ageBuckets.getD k "") = toString (k + 1)) ∧
    (∀ a ∈ ageBuckets, ∀ b ∈ ageBuckets, ageRemap a = ageRemap b → a = b) ∧
    (∀ v, v ∉ ageBuckets → ageRemap v = v) := by
  refine ⟨by decide, by decide, ?_⟩
  intro v hv
  exact ageRemap_id hv

theorem age_bucket_remap_bijection_witness :
    ageRemap (ageBuckets.getD 0 "") = toString 1 :=
  age_bucket_remap_bijection.1 0 (by decide)

/-- C8: whenever normalization succeeds, the output table has exactly the
input's shape — same column names, same dtypes, in the same order, with the
same number of cells per column. -/
theorem normalize_preserves_shape (t t' : Table)
    (h : normalizeTable t = .ok t') : tableShape t' = tableShape t := by
  unfold normalizeTable at h
  cases hi : imputeCols (remapPhase t).cols with
  | error e => rw [hi] at h; exact absurd h (by simp [Except.map])
  | ok cs =>
    rw [hi] at h
    simp [Except.map] at h
    subst h
    calc tableShape ⟨cs⟩
        = tableShape (remapPhase t) := imputeCols_shape hi
      _ = tableShape t := tableShape_remapPhase t

theorem normalize_preserves_shape_witness :
    tableShape ⟨[⟨"age", false, [some "1", some "1", none]⟩]⟩ =
      tableShape ⟨[⟨"age", false, [some "[0-10)", some "NO", some "?"]⟩]⟩ :=
  normalize_preserves_shape ⟨[⟨"age", false, [some "[0-10)", some "NO", some "?"]⟩]⟩
    ⟨[⟨"age", false, [some "1", some "1", none]⟩]⟩ (by rfl)


/-- C2 (amended): for an object-dtype column whose `mode()[0]` is defined,
the imputation step fills every missing entry with a value `m` that is a
most frequent observed value and, among equally frequent values, the least
in string order (pandas sorts the mode values); observed entries are kept. -/
theorem imputation_fills_sorted_mode (c : Col) (m : String)
    (hobj : c.isObject = true)
    (hm : modeHead (obsVals c.cells) = some m) :
    fillCol c = .ok { c with cells := c.cells.map fun x => some (x.getD m) } ∧
    m ∈ obsVals c.cells ∧
    (∀ v ∈ obsVals c.cells,
      (obsVals c.cells).count v ≤ (obsVals c.cells).count m) ∧
    (∀ v ∈ obsVals c.cells,
      (obsVals c.cells).count v = (obsVals c.cells).count m →
        lexLt v m = false) := by
  refine ⟨by simp [fillCol, hobj, hm], modeHead_mem hm, ?_, ?_⟩
  · intro v hv
    exact (modeHead_dominates hm v hv).1
  · intro v hv
    exact (modeHead_dominates hm v hv).2

theorem imputation_fills_sorted_mode_witness :
    fillCol ⟨"race", true, [some "b", some "a", none]⟩ =
      .ok ⟨"race", true, [some "b", some "a", some "a"]⟩ :=
  (imputation_fills_sorted_mode ⟨"race", true, [some "b", some "a", none]⟩
    "a" rfl (by decide)).1

/-- C2's counterexample: on the observed values `["b", "a"]` (both appearing
once) the claim's first-encountered tie-break picks `"b"`, but the code fills
the missing cell with `"a"`, the least most-frequent value in string order. -/
theorem imputation_tie_break_counterexample :
    fillCol ⟨"race", true, [some "b", some "a", none]⟩ =
      .ok ⟨"race", true, [some "b", some "a", some "a"]⟩ ∧
    firstMostFrequent (obsVals [some "b", some "a", none]) = some "b" ∧
    modeHead (obsVals [some "b", some "a", none]) = some "a" ∧
    ("a" : String) ≠ "b" := by
  refine ⟨rfl, rfl, rfl, by decide⟩

/-- C6 (amended): a non-numeric (object-dtype) column that is entirely
missing makes normalization fail — `mode()[0]` on the empty mode series
raises — but the error is pandas' generic `KeyError: 0`, not a dedicated
`EmptyColumnError` (no such error exists in the code). -/
theorem empty_object_column_fails (t : Table)
    (h : ∃ c ∈ t.cols, c.isObject = true ∧ ∀ x ∈ c.cells, x = none) :
    normalizeTable t = .error "KeyError: 0" := by
  obtain ⟨c, hc, hobj, hnone⟩ := h
  unfold normalizeTable
  rw [remapPhase_eq]
  have himp : imputeCols (t.cols.map fun d => { d with cells := d.cells.map cellRule }) =
      .error "KeyError: 0" := by
    apply imputeCols_error
    refine ⟨{ c with cells := c.cells.map cellRule }, List.mem_map_of_mem _ hc, ?_⟩
    refine fillCol_error_of_all_none ?_ ?_
    · exact hobj
    · intro x hx
      obtain ⟨y, hy, hxy⟩ := List.mem_map.mp hx
      rw [← hxy, hnone y hy, cellRule_none]
  rw [himp]
  rfl

theorem empty_object_column_fails_witness :
    normalizeTable ⟨[⟨"race", true, [none, none]⟩]⟩ = .error "KeyError: 0" :=
  empty_object_column_fails ⟨[⟨"race", true, [none, none]⟩]⟩
    ⟨⟨"race", true, [none, none]⟩, by decide, rfl, by decide⟩

/-- C6's counterexample: on a table whose only column is object-dtype and
entirely missing, normalization fails with `KeyError: 0`, which is not an
`EmptyColumnError`. -/
theorem empty_column_error_name_counterexample :
    normalizeTable ⟨[⟨"race", true, [none, none]⟩]⟩ = .error "KeyError: 0" ∧
    normalizeTable ⟨[⟨"race", true, [none, none]⟩]⟩ ≠
      .error "EmptyColumnError" := by
  have h1 : normalizeTable ⟨[⟨"race", true, [none, none]⟩]⟩ =
      .error "KeyError: 0" := rfl
  refine ⟨h1, ?_⟩
  rw [h1]
  simp

/-- C9 (amended): normalization is a no-op on already-normalized input —
no raw label tokens, no `'?'` sentinels, no age-bucket strings anywhere,
and every non-numeric (object-dtype) column non-missing — provided each
object column has at least one cell (a zero-row object column makes
`mode()[0]` raise instead). -/
theorem normalize_idempotent_on_clean (t : Table)
    (hvals : ∀ c ∈ t.cols, ∀ v : String, some v ∈ c.cells →
      v ∉ targetTokens ∧ v ≠ "?" ∧ v ∉ ageBuckets)
    (hobj : ∀ c ∈ t.cols, c.isObject = true → none ∉ c.cells ∧ c.cells ≠ []) :
    normalizeTable t = .ok t := by
  have hremap : remapPhase t = t := by
    rw [remapPhase_eq]
    have hcols : t.cols.map (fun c => { c with cells := c.cells.map cellRule }) = t.cols :=
      calc t.cols.map (fun c => { c with cells := c.cells.map cellRule })
          = t.cols.map id := by
            apply List.map_congr_left
            intro c hc
            have hcells : c.cells.map cellRule = c.cells :=
              calc c.cells.map cellRule
                  = c.cells.map id := by
                    apply List.map_congr_left
                    intro x hx
                    cases x with
                    | none => exact cellRule_none
                    | some v =>
                      obtain ⟨h1, h2, h3⟩ := hvals c hc v hx
                      exact cellRule_id h1 h2 h3
                _ = c.cells := List.map_id _
            show { c with cells := c.cells.map cellRule } = id c
            rw [hcells]
            rfl
        _ = t.cols := List.map_id _
    rw [hcols]
  have himp : imputeCols t.cols = .ok t.cols :=
    imputeCols_id fun c hc => fillCol_id_of_clean (hobj c hc)
  unfold normalizeTable
  rw [hremap, himp]
  rfl

theorem normalize_idempotent_on_clean_witness :
    normalizeTable ⟨[⟨"race", true, [some "b"]⟩]⟩ =
      .ok ⟨[⟨"race", true, [some "b"]⟩]⟩ :=
  normalize_idempotent_on_clean ⟨[⟨"race", true, [some "b"]⟩]⟩
    (by
      intro c hc v hv
      simp only [List.mem_singleton] at hc
      subst hc
      simp only [List.mem_singleton] at hv
      have hvb : v = "b" := by
        injection hv
      subst hvb
      exact ⟨by decide, by decide, by decide⟩)
    (by
      intro c hc _
      simp only [List.mem_singleton] at hc
      subst hc
      exact ⟨by decide, by decide⟩)

/-- C9's counterexample: a table whose only column is object-dtype with
zero rows satisfies the claim's hypotheses vacuously (no tokens, no bucket
strings, no missing entries), yet normalization raises `KeyError: 0` from
`mode()[0]` on the empty column instead of returning the table unchanged. -/
theorem normalize_idempotent_counterexample :
    (∀ c ∈ ([⟨"x", true, []⟩] : List Col), ∀ v : String, some v ∈ c.cells →
      v ∉ targetTokens ∧ v ≠ "?" ∧ v ∉ ageBuckets) ∧
    (∀ c ∈ ([⟨"x", true, []⟩] : List Col), c.isObject = true → none ∉ c.cells) ∧
    normalizeTable ⟨[⟨"x", true, []⟩]⟩ = .error "KeyError: 0" ∧
    normalizeTable ⟨[⟨"x", true, []⟩]⟩ ≠ .ok ⟨[⟨"x", true, []⟩]⟩ := by
  refine ⟨?_, ?_, rfl, ?_⟩
  · intro c hc v hv
    simp only [List.mem_singleton] at hc
    subst hc
    exact absurd hv (by simp)
  · intro c hc _
    simp only [List.mem_singleton] at hc
    subst hc
    simp
  · have h1 : normalizeTable ⟨[⟨"x", true, []⟩]⟩ = .error "KeyError: 0" := rfl
    rw [h1]
    simp

/-- C1: with `use_cache` true, a present cache file is read back unchanged
and the remote source is not contacted; with the cache file absent, the
remote table is fetched, the cache directory is created (idempotently) and
the table is persisted at the cache path; with `use_cache` false, the
remote source is always read and the filesystem is untouched. -/
theorem fetch_cache_resolution (fs : FileSystem) (remote : Table)
    (dh : Option String) :
    (∀ tb, readTableFile fs (cachePath dh) = some tb →
      fetchStep fs remote dh true = some ⟨tb, fs, false⟩) ∧
    (isfile fs (cachePath dh) = false →
      fetchStep fs remote dh true =
        some ⟨remote, writeFile (makedirs fs (dirname (cachePath dh)))
          (cachePath dh) remote, true⟩) ∧
    fetchStep fs remote dh false = some ⟨remote, fs, true⟩ ∧
    makedirs (makedirs fs (dirname (cachePath dh))) (dirname (cachePath dh)) =
      makedirs fs (dirname (cachePath dh)) := by
  refine ⟨?_, ?_, ?_, makedirs_idem fs (dirname (cachePath dh))⟩
  · intro tb htb
    have hisf : isfile fs (cachePath dh) = true := by
      unfold readTableFile at htb
      cases hfind : fs.files.find? (fun f => f.1 = cachePath dh) with
      | none => rw [hfind] at htb; exact absurd htb (by simp)
      | some f =>
        have hmem : f ∈ fs.files := List.mem_of_find?_eq_some hfind
        have hpf := List.find?_some hfind
        unfold isfile
        rw [List.any_eq_true]
        exact ⟨f, hmem, hpf⟩
    simp [fetchStep, hisf, htb]
  · intro hisf
    simp [fetchStep, hisf]
  · simp [fetchStep]

theorem fetch_cache_resolution_witness :
    fetchStep ⟨[(cachePath none, ⟨[]⟩)], []⟩ ⟨[]⟩ none true =
      some ⟨⟨[]⟩, ⟨[(cachePath none, ⟨[]⟩)], []⟩, false⟩ :=
  (fetch_cache_resolution ⟨[(cachePath none, ⟨[]⟩)], []⟩ ⟨[]⟩ none).1 ⟨[]⟩
    (by decide)

/-- C7: when the local data file cannot be read, the legacy constructor
prints the download instructions — including the acquisition URL and the
expected folder path — and terminates with `sys.exit(1)`; it neither raises
to the caller nor reaches the base-class call. -/
theorem legacy_missing_file_fatal_exit (moduleDir errMsg : String) :
    diabetesInitDefaults moduleDir (.error errMsg) =
      .fatalExit 1 (legacyPrintedLines errMsg moduleDir) ∧
    ("\n\t" ++ UCI_ZIP_URL) ∈ legacyPrintedLines errMsg moduleDir ∧
    ("\n\t" ++ diabetesInstallDir moduleDir ++ "\n") ∈
      legacyPrintedLines errMsg moduleDir ∧
    (∀ e, diabetesInitDefaults moduleDir (.error errMsg) ≠ .raised e) ∧
    (∀ args, diabetesInitDefaults moduleDir (.error errMsg) ≠ .ok args) := by
  refine ⟨rfl, by simp [legacyPrintedLines], by simp [legacyPrintedLines], ?_, ?_⟩
  · intro e h
    simp [diabetesInitDefaults, diabetesInit] at h
  · intro args h
    simp [diabetesInitDefaults, diabetesInit] at h

theorem legacy_missing_file_fatal_exit_witness :
    diabetesInitDefaults "aif360/datasets" (.error "No such file") ≠
      .raised "No such file" :=
  (legacy_missing_file_fatal_exit "aif360/datasets" "No such file").2.2.2.1
    "No such file"

/-- C10: the legacy constructor's default `label_name` is the string
`'readmitted '` with a trailing space, which differs from the column name
`'readmitted'` listed in the same constructor's default
`categorical_features`; every defaults call therefore forwards a label name
to the base class that is not `'readmitted'`. -/
theorem legacy_default_label_trailing_space (moduleDir : String) (df : Table) :
    defaultLabelName = "readmitted " ∧
    "readmitted" ∈ defaultCategoricalFeatures ∧
    defaultLabelName ≠ "readmitted" ∧
    ∃ args, diabetesInitDefaults moduleDir (.ok df) = .ok args ∧
      args.labelName = defaultLabelName ∧ args.labelName ≠ "readmitted" := by
  refine ⟨rfl, by decide, by decide, ⟨_, rfl, rfl, ?_⟩⟩
  show defaultLabelName ≠ "readmitted"
  decide

theorem legacy_default_label_trailing_space_witness :
    defaultLabelName ≠ "readmitted" :=
  (legacy_default_label_trailing_space "aif360/datasets" ⟨[]⟩).2.2.1
